import Mathlib

/-
Verification of the request authorization / audit-logging surface of the
appbaseio/arc API gateway, shallowly embedded in Lean 4.

Each Go function relevant to the verified properties is translated into an
executable Lean definition; machine-level concerns (elasticsearch I/O,
JSON byte handling) are represented by explicit data carried in the
structures (e.g. a search hit carries the outcome of unmarshalling its
source document).
-/

/-- Decidable equality for Except values over decidable components. -/
instance {ε α : Type} [DecidableEq ε] [DecidableEq α] : DecidableEq (Except ε α) :=
fun a b =>
  match a, b with
  | Except.error e1, Except.error e2 =>
    if h : e1 = e2 then isTrue (congrArg Except.error h)
    else isFalse (fun hc => h (Except.error.inj hc))
  | Except.error _, Except.ok _ => isFalse (fun hc => Except.noConfusion hc)
  | Except.ok _, Except.error _ => isFalse (fun hc => Except.noConfusion hc)
  | Except.ok v1, Except.ok v2 =>
    if h : v1 = v2 then isTrue (congrArg Except.ok h)
    else isFalse (fun hc => h (Except.ok.inj hc))

namespace op

/-- The Operation enumeration from internal/types/op/Op.go:
Noop, Read, Write, Delete (iota order). -/
inductive Operation
| noop
| read
| write
| delete
deriving DecidableEq

/-- The Operation String method from Op.go lines 21-28: the lowercase token
table indexed by the enumeration value. -/
def Operation.toToken : Operation → String
| Operation.noop => "noop"
| Operation.read => "read"
| Operation.write => "write"
| Operation.delete => "delete"

/-- The switch over the decoded token inside the Operation UnmarshalJSON
method (Op.go lines 36-47): the four known tokens map to their values,
anything else is a hard error. -/
def unmarshalToken (s : String) : Except String Operation :=
if s = Operation.noop.toToken then Except.ok Operation.noop
else if s = Operation.read.toToken then Except.ok Operation.read
else if s = Operation.write.toToken then Except.ok Operation.write
else if s = Operation.delete.toToken then Except.ok Operation.delete
else Except.error ("invalid op encountered: " ++ s)

/-- Model of Go json.Marshal of a plain string value whose content needs no
escapes (true of the four tokens): wrap in quotes. -/
def jsonEncodeString (s : String) : String := "\"" ++ s ++ "\""

/-- Model of Go json.Unmarshal of a JSON value into a string variable,
restricted to escape-free content: the bytes must be a quoted string with
no interior quote or backslash; anything else fails to decode. -/
def jsonDecodeString (bytes : String) : Except String String :=
match bytes.data with
| List.cons c rest =>
  if c = Char.ofNat 34 ∧ rest ≠ [] ∧ rest.getLast? = some (Char.ofNat 34)
      ∧ ¬ (Char.ofNat 34) ∈ rest.dropLast ∧ ¬ (Char.ofNat 92) ∈ rest.dropLast then
    Except.ok (String.mk rest.dropLast)
  else Except.error "invalid character in string"
| List.nil => Except.error "unexpected end of JSON input"

/-- The Operation MarshalJSON method (Op.go lines 51-66): each of the four
values serializes to its quoted lowercase token.  The default error branch
of the Go switch is unreachable for the four-valued enumeration and so does
not appear. -/
def marshalJSON (o : Operation) : Except String String :=
Except.ok (jsonEncodeString o.toToken)

/-- The Operation UnmarshalJSON method (Op.go lines 30-49): decode the JSON
string, then dispatch on the token. -/
def unmarshalJSON (bytes : String) : Except String Operation :=
match jsonDecodeString bytes with
| Except.error e => Except.error e
| Except.ok s => unmarshalToken s

/-- The set of serialized Operation tokens. -/
def opTokens : List String := ["noop", "read", "write", "delete"]

end op

namespace users

/-- The user record (package model/user).  Fields are those listed in the
repository README (username, password, is_admin, categories, acls, ops,
indices, email, created_at) plus the password_hash_type tag read and
written by hashPasswords in part_006. -/
structure User where
  username : String
  password : String
  passwordHashType : String
  isAdmin : Bool
  categories : List String
  acls : List String
  ops : List op.Operation
  indices : List String
  email : String
  createdAt : String
deriving DecidableEq

/-- One iteration of the loop in hashPasswords (part_006 lines 98-122): a
user whose password_hash_type tag is non-empty is skipped; otherwise the
stored password is replaced by the bcrypt hash of the stored plaintext and
the tag is set to bcrypt (the patch touches only these two fields).
bcrypt.GenerateFromPassword is abstracted as the function bHash. -/
def hashUser (bHash : String → String) (u : User) : User :=
if u.passwordHashType ≠ "" then u
else { u with password := bHash u.password, passwordHashType := "bcrypt" }

/-- hashPasswords (part_006 lines 84-125): apply the migration step to
every stored user. -/
def hashPasswords (bHash : String → String) (userList : List User) : List User :=
userList.map (hashUser bHash)

/-- Modelled from the spec: user.NewAdmin (package model/user is not among
the sources) builds a user with the admin flag set, per the README item
saying is_admin distinguishes an admin user and the spec master-identity
bootstrap.  Grant fields are left at their zero values. -/
def NewAdmin (username password : String) : User :=
{ username := username, password := password, passwordHashType := "",
  isAdmin := true, categories := [], acls := [], ops := [], indices := [],
  email := "", createdAt := "" }

/-- postMasterUser (part_006 lines 127-153): bootstrap credentials default
to foo/bar when the USERNAME environment variable is empty; the password is
bcrypt-hashed before the admin user is built and the hash-algorithm tag is
set to bcrypt before the user is posted. -/
def postMasterUser (envUsername envPassword : String) (bHash : String → String) : User :=
let creds := if envUsername = "" then ("foo", "bar") else (envUsername, envPassword)
let hashedPassword := bHash creds.2
let admin := NewAdmin creds.1 hashedPassword
{ admin with passwordHashType := "bcrypt" }

/-- A concrete legacy user record whose password is still stored in
plaintext (empty hash-algorithm tag). -/
def legacyUser : User :=
{ username := "old", password := "secret", passwordHashType := "",
  isAdmin := false, categories := [], acls := [], ops := [], indices := [],
  email := "", createdAt := "" }

end users

namespace auth

/-- The permission record (package model/permission), fields per the
repository README: username, password, owner, creator, categories, acls,
ops, indices, sources, referers, created_at, ttl, description. -/
structure Permission where
  username : String
  password : String
  owner : String
  creator : String
  categories : List String
  acls : List String
  ops : List op.Operation
  indices : List String
  sources : List String
  referers : List String
  createdAt : String
  ttl : Nat
  description : String
deriving DecidableEq

/-- The tagged union behind credential.AuthCredential: a resolved
credential is either a user or a permission. -/
inductive AuthCredential
| user (u : users.User)
| perm (p : Permission)
deriving DecidableEq

/-- One hit of the search over the user and permission indices inside
getCredential.  Source presence (hit.Source vs nil) and the outcomes of
json.Unmarshal into each record type are carried explicitly. -/
structure Hit where
  index : String
  sourcePresent : Bool
  parseUser : Except String users.User
  parsePerm : Except String Permission
deriving DecidableEq

/-- One iteration of the loop body in getCredential (dao_es6.go lines
65-86): a hit from the user index with a present source is unmarshalled
into a user (an unmarshalling error aborts); a hit from the permission
index is unmarshalled into a permission; any other hit leaves the
accumulator unchanged. -/
def credentialStep (userIndex permissionIndex : String)
    (acc : Except String (Option AuthCredential)) (hit : Hit) :
    Except String (Option AuthCredential) :=
match acc with
| Except.error e => Except.error e
| Except.ok o =>
  if hit.index = userIndex then
    if hit.sourcePresent then
      match hit.parseUser with
      | Except.error e => Except.error e
      | Except.ok u => Except.ok (some (AuthCredential.user u))
    else Except.ok o
  else if hit.index = permissionIndex then
    match hit.parsePerm with
    | Except.error e => Except.error e
    | Except.ok p => Except.ok (some (AuthCredential.perm p))
  else Except.ok o

/-- getCredential (dao_es6.go lines 47-89): more than one hit for the
username is a hard error; otherwise the zero-or-one hit is folded into an
optional credential and returned with no error - in particular zero hits
yield success carrying no credential. -/
def getCredential (userIndex permissionIndex username : String)
    (hits : List Hit) : Except String (Option AuthCredential) :=
if hits.length > 1 then
  Except.error ("more than one result for username=" ++ username)
else hits.foldl (credentialStep userIndex permissionIndex) (Except.ok none)

/-- A concrete user record used to build sample hits. -/
def sampleUser : users.User :=
{ username := "bob", password := "h", passwordHashType := "bcrypt",
  isAdmin := false, categories := [], acls := [], ops := [], indices := [],
  email := "", createdAt := "" }

/-- A concrete hit from the user index that unmarshals successfully. -/
def sampleHitUser : Hit :=
{ index := ".users", sourcePresent := true,
  parseUser := Except.ok sampleUser,
  parsePerm := Except.error "not a permission" }

end auth

namespace logs

/-- The request categories referenced by the logs middleware (package
model/category): the two chains classify to Logs and User respectively,
and the recorder branches on Search and ReactiveSearch. -/
inductive Category
| logsCat
| userCat
| search
| reactiveSearch
| otherCat
deriving DecidableEq

/-- The interceptor stages appearing in the logs plugin chains, plus the
rate-limit stage named by the spec and the terminal business handler. -/
inductive Stage
| classifyCategory
| classifyOp
| classifyIndices
| basicAuth
| validateIndices
| validateOperation
| validateCategory
| rateLimit
| businessHandler
deriving DecidableEq

/-- The middleware list of the logs plugin chains: the Go function list in
part_004 lines 47-57 and part_005 lines 45-55 (both declare the same
sequence). -/
def list : List Stage :=
[Stage.classifyCategory, Stage.classifyOp, Stage.classifyIndices,
 Stage.basicAuth, Stage.validateIndices, Stage.validateOperation,
 Stage.validateCategory]

/-- Handlers observed as trace transformers: running a stage appends its
label, so execution order is observable in the trace. -/
def Middleware : Type := (List Stage → List Stage) → (List Stage → List Stage)

/-- A middleware made of a single labelled stage: it runs (appends its
label) and then invokes the handler it wraps. -/
def stageMw (s : Stage) : Middleware := fun h t => h (t ++ [s])

/-- The terminal business handler as a trace transformer. -/
def handlerRun : List Stage → List Stage := fun t => t ++ [Stage.businessHandler]

/-- Modelled from the spec: the Fifo chain adapter (package middleware is
not among the sources).  Per the spec a chain is an ordered sequence of
interceptors, each receiving the terminal handler and returning a wrapping
handler; the first middleware of the list is applied outermost and so runs
first. -/
def adapt (h : List Stage → List Stage) : List Middleware → (List Stage → List Stage)
| [] => h
| List.cons m ms => m (adapt h ms)

/-- A client-visible HTTP response: status code, headers, body bytes. -/
structure HttpResponse where
  code : Nat
  headers : List (String × String)
  body : List Char
deriving DecidableEq

/-- An inbound request together with its request-scoped context and the
outcomes of the fallible reads the middleware performs on it. -/
structure ReqCtx where
  xRequestCategory : String -- r.Header.Get of X-Request-Category
  urlPath : String
  method : String
  ctxCategory : Option Category -- category.FromContext
  ctxIndices : Option (List String) -- index.FromContext
  dumpOk : Bool -- httputil.DumpRequest outcome (part_004)
  dumpBytes : List Char -- the dump when dumpOk holds
  rsMarshalled : List Char -- json.Marshal of the context request body (ReactiveSearch path)
  bodyReadable : Bool -- ioutil.ReadAll of r.Body outcome (part_005)
  reqBody : List Char -- the request body when readable
deriving DecidableEq

/-- Environment flags for the fallible steps inside recordResponse. -/
structure LogEnv where
  respBodyReadable : Bool -- ioutil.ReadAll of the recorded response body
  rsMarshalOk : Bool -- json.Marshal of rsRequestBody (part_004 ReactiveSearch path)
  marshalRecordOk : Bool -- json.Marshal of the record (part_004)
  writeOk : Bool -- lumberjack.Write (part_004)
deriving DecidableEq

/-- util.Min, used for the 1,000,000-byte body ceiling. -/
def utilMin (a b : Nat) : Nat := if a < b then a else b

/-- The fixed body-size ceiling of the audit-log records. -/
def maxBodySize : Nat := 1000000

/-- The Go slice expression b[:util.Min(len(b), 1000000)] applied to stored
request and response bodies. -/
def trunc (b : List Char) : List Char := b.take (utilMin b.length maxBodySize)

/-- strings.Split modelled on char lists by a fuel-driven scan; fuel equal
to the input length suffices for a nonempty separator. -/
def splitGo (sep : List Char) : Nat → List Char → List Char → List (List Char)
| 0, s, acc => [acc.reverse ++ s]
| Nat.succ fuel, s, acc =>
  match s with
  | [] => [acc.reverse]
  | List.cons c rest =>
    if List.isPrefixOf sep (List.cons c rest) then
      List.cons acc.reverse (splitGo sep fuel ((List.cons c rest).drop sep.length) [])
    else splitGo sep fuel rest (List.cons c acc)

/-- strings.Split of s on sep. -/
def splitOnSeq (s sep : List Char) : List (List Char) := splitGo sep s.length s []

/-- The CRLFCRLF separator between the head block and the body of a
request dump. -/
def crlfcrlf : List Char := [Char.ofNat 13, Char.ofNat 10, Char.ofNat 13, Char.ofNat 10]

/-- The request-body extraction of the non-ReactiveSearch path of
recordResponse (part_004 lines 213-217): split the request dump on
CRLFCRLF and take the second segment, empty when there is none. -/
def parsedBody (dump : List Char) : List Char :=
let parts := splitOnSeq dump crlfcrlf
if parts.length > 1 then parts.getD 1 [] else []

/-- The stored request body of the part_004 non-ReactiveSearch path
(line 222). -/
def storedRequestBodyDump (dump : List Char) : List Char := trunc (parsedBody dump)

/-- The stored request body of the part_005 recorder (line 123). -/
def storedRequestBody (reqBody : List Char) : List Char := trunc reqBody

/-- The stored response body (part_004 lines 211 and 225, part_005
line 176). -/
def storedResponseBody (respBody : List Char) : List Char := trunc respBody

/-- The audit-log record fields the verified properties are about. -/
structure LogRecord where
  indices : List String
  category : Category
  requestBody : List Char
  responseBody : List Char
deriving DecidableEq

/-- recordResponse of part_004 (lines 136-240), as the optional record it
persists: a missing context entry, an unreadable response body, a failed
marshal of the ReactiveSearch context body, a failed marshal of the
record, or a failed write all end the function with nothing persisted and
only a local log line. -/
def recordResponseA (env : LogEnv) (r : ReqCtx) (resp : HttpResponse) : Option LogRecord :=
match r.ctxCategory with
| none => none
| some cat =>
  match r.ctxIndices with
  | none => none
  | some idx =>
    if ¬ env.respBodyReadable then none
    else
      if cat = Category.reactiveSearch then
        if ¬ env.rsMarshalOk then none
        else
          let rec0 : LogRecord :=
            { indices := idx, category := cat,
              requestBody := trunc r.rsMarshalled,
              responseBody := storedResponseBody resp.body }
          if env.marshalRecordOk ∧ env.writeOk then some rec0 else none
      else
        let rec0 : LogRecord :=
          { indices := idx, category := cat,
            requestBody := storedRequestBodyDump r.dumpBytes,
            responseBody := storedResponseBody resp.body }
        if env.marshalRecordOk ∧ env.writeOk then some rec0 else none

/-- recordResponse of part_005 (lines 142-212): the record is built from
the request part prepared by the recorder and from the recorded response;
the persistence block is commented out in this version, so only a missing
context entry or an unreadable response body aborts. -/
def recordResponseB (env : LogEnv) (r : ReqCtx) (requestBody : List Char)
    (resp : HttpResponse) : Option LogRecord :=
match r.ctxCategory with
| none => none
| some cat =>
  match r.ctxIndices with
  | none => none
  | some idx =>
    if ¬ env.respBodyReadable then none
    else some { indices := idx, category := cat,
                requestBody := requestBody,
                responseBody := storedResponseBody resp.body }

/-- What the recorder middleware does for one request: the response written
to the client (none when the middleware returns without writing anything),
whether the detached recording step was spawned, and the record that step
produces. -/
structure RecorderOutcome where
  client : Option HttpResponse
  spawned : Bool
  record : Option LogRecord
deriving DecidableEq

/-- recorder of part_004 (lines 98-134): requests tagged streams bypass
recording and are served directly; a missing category classification, or a
failed request dump for a non-ReactiveSearch category, makes the
middleware return without serving anything; otherwise the handler is
served into a response recorder whose code, headers and body are copied
back to the client, and the recording step is spawned detached. -/
def recorderA (env : LogEnv) (h : ReqCtx → HttpResponse) (r : ReqCtx) : RecorderOutcome :=
if r.xRequestCategory = "streams" then
  { client := some (h r), spawned := false, record := none }
else
  match r.ctxCategory with
  | none => { client := none, spawned := false, record := none }
  | some cat =>
    if cat ≠ Category.reactiveSearch ∧ ¬ r.dumpOk then
      { client := none, spawned := false, record := none }
    else
      { client := some (h r), spawned := true,
        record := recordResponseA env r (h r) }

/-- The 500 error response written by util.WriteBackError when the request
body cannot be read (part_005 lines 106-110); the body format of
WriteBackError is outside the sources and left empty. -/
def writeBackError500 : HttpResponse :=
{ code := 500, headers := [], body := [] }

/-- recorder of part_005 (lines 96-140): streams requests bypass recording;
an unreadable request body is answered with a 500 error without serving
the handler; otherwise the request part is captured with its body
truncated, the handler is served into a response recorder copied back to
the client, and the recording step is spawned detached. -/
def recorderB (env : LogEnv) (h : ReqCtx → HttpResponse) (r : ReqCtx) : RecorderOutcome :=
if r.xRequestCategory = "streams" then
  { client := some (h r), spawned := false, record := none }
else if ¬ r.bodyReadable then
  { client := some writeBackError500, spawned := false, record := none }
else
  { client := some (h r), spawned := true,
    record := recordResponseB env r (storedRequestBody r.reqBody) (h r) }

/-- Bytewise lexicographic comparison of char lists by codepoint; for UTF-8
data this coincides with the Go bytewise string order used by
sort.Strings. -/
def charListLe : List Char → List Char → Bool
| [], _ => true
| List.cons _ _, [] => false
| List.cons c cs, List.cons d ds =>
  if c.toNat < d.toNat then true
  else if d.toNat < c.toNat then false
  else charListLe cs ds

/-- The Go string order of sort.Strings. -/
def goStringLe (a b : String) : Bool := charListLe a.data b.data

/-- sort.Strings modelled as insertion sort under the Go string order (the
sorted permutation of a list under a total order is unique, so any sorting
algorithm yields the same list). -/
def sortStrings (l : List String) : List String :=
List.insertionSort (fun a b => goStringLe a b = true) l

/-- The retention step of rolloverIndexJob (part_003 lines 137-161): with
more than two matching indices, sort them and delete all but the last two
of the sorted order; otherwise delete nothing. -/
def rolloverDeletes (indices : List String) : List String :=
if indices.length > 2 then
  let sorted := sortStrings indices
  sorted.take (sorted.length - 2)
else []

/-- An environment in which every fallible recording step succeeds. -/
def envAllOk : LogEnv :=
{ respBodyReadable := true, rsMarshalOk := true,
  marshalRecordOk := true, writeOk := true }

/-- A plain successful handler response. -/
def okResponse : HttpResponse := { code := 200, headers := [], body := [] }

/-- A request carrying a full classification context, with every read
succeeding. -/
def reqOk : ReqCtx :=
{ xRequestCategory := "", urlPath := "/x", method := "GET",
  ctxCategory := some Category.userCat, ctxIndices := some [],
  dumpOk := true, dumpBytes := [], rsMarshalled := [],
  bodyReadable := true, reqBody := [] }

/-- A request whose context carries no category classification. -/
def reqNoCategory : ReqCtx :=
{ xRequestCategory := "", urlPath := "/x", method := "GET",
  ctxCategory := none, ctxIndices := some [],
  dumpOk := true, dumpBytes := [], rsMarshalled := [],
  bodyReadable := true, reqBody := [] }

/-- A request whose body cannot be read. -/
def reqUnreadable : ReqCtx :=
{ xRequestCategory := "", urlPath := "/x", method := "GET",
  ctxCategory := some Category.userCat, ctxIndices := some [],
  dumpOk := true, dumpBytes := [], rsMarshalled := [],
  bodyReadable := false, reqBody := [] }

/-- A request tagged with the streams category header. -/
def reqStreams : ReqCtx :=
{ xRequestCategory := "streams", urlPath := "/x", method := "GET",
  ctxCategory := some Category.userCat, ctxIndices := some [],
  dumpOk := true, dumpBytes := [], rsMarshalled := [],
  bodyReadable := true, reqBody := [] }

end logs

/-
Theorems.  Each claim-level theorem is stated over the definitions above.
-/

/-- C1: for every username for which the credential lookup finds more than
one matching record, getCredential returns an error and no credential; it
never silently picks one of the matches. -/
theorem getCredential_ambiguous_is_error
    (userIndex permissionIndex username : String)
    (hits : List auth.Hit) (h : hits.length > 1) :
    auth.getCredential userIndex permissionIndex username hits =
      Except.error ("more than one result for username=" ++ username) := by
  unfold auth.getCredential
  rw [if_pos h]

/-- C1 witness: two user-index hits for the same username are rejected. -/
theorem getCredential_ambiguous_is_error_witness :
    ([auth.sampleHitUser, auth.sampleHitUser] : List auth.Hit).length > 1 ∧
    auth.getCredential ".users" ".permissions" "bob"
        [auth.sampleHitUser, auth.sampleHitUser] =
      Except.error ("more than one result for username=" ++ "bob") :=
  ⟨by decide,
   getCredential_ambiguous_is_error ".users" ".permissions" "bob"
     [auth.sampleHitUser, auth.sampleHitUser] (by decide)⟩

/-- C2 counterexample: with no matching user or permission record the
lookup does not fail - getCredential returns success carrying no
credential instead of a NotFound error. -/
theorem getCredential_no_match_success_cex :
    auth.getCredential ".users" ".permissions" "ghost" [] = Except.ok none := rfl

/-- C2 amended: for a username with no matching records, getCredential
returns success carrying no credential (nil credential, nil error);
recognizing the nil credential as NotFound is left to the caller. -/
theorem getCredential_no_match_ok_none
    (userIndex permissionIndex username : String) :
    auth.getCredential userIndex permissionIndex username [] = Except.ok none := rfl

/-- C3: marshalling any Operation to JSON and unmarshalling the result
yields the original value (the serialized form being the quoted lowercase
token), and the unmarshalling switch rejects every token outside the four
known ones with a hard error instead of defaulting to Noop. -/
theorem operation_roundtrip_and_unknown_rejected :
    (∀ o : op.Operation,
      (op.marshalJSON o).bind op.unmarshalJSON = Except.ok o ∧
      op.marshalJSON o = Except.ok (op.jsonEncodeString o.toToken)) ∧
    (∀ s : String, ¬ s ∈ op.opTokens →
      op.unmarshalToken s = Except.error ("invalid op encountered: " ++ s)) := by
  constructor
  · intro o
    cases o <;> exact ⟨by decide, rfl⟩
  · intro s hs
    simp only [op.opTokens, List.mem_cons, List.not_mem_nil, or_false, not_or] at hs
    obtain ⟨h1, h2, h3, h4⟩ := hs
    simp [op.unmarshalToken, op.Operation.toToken, h1, h2, h3, h4]

/-- C3 witness: the unknown token bogus is outside the token set and is
rejected by the unmarshalling switch. -/
theorem operation_unknown_rejected_witness :
    (¬ "bogus" ∈ op.opTokens) ∧
    op.unmarshalToken "bogus" =
      Except.error ("invalid op encountered: " ++ "bogus") :=
  ⟨by decide, operation_roundtrip_and_unknown_rejected.2 "bogus" (by decide)⟩

/-- C4 counterexample: in the logs plugin chains the category authorization
check sits at position 6, after operation validation at position 5, and no
rate-limit stage appears in the chain at all, contradicting the claimed
canonical order. -/
theorem chain_order_cex :
    logs.list.indexOf logs.Stage.validateOperation = 5 ∧
    logs.list.indexOf logs.Stage.validateCategory = 6 ∧
    ¬ logs.Stage.rateLimit ∈ logs.list := by decide

/-- C4 amended: the logged, authenticated chains apply classification
(category, then operation, then indices), then authentication, then index
validation, then operation validation, then category validation, with the
business handler wrapped innermost and thus running last; the chains
contain no rate-limiting stage. -/
theorem chain_order_amended :
    logs.adapt logs.handlerRun (logs.list.map logs.stageMw) [] =
      [logs.Stage.classifyCategory, logs.Stage.classifyOp,
       logs.Stage.classifyIndices, logs.Stage.basicAuth,
       logs.Stage.validateIndices, logs.Stage.validateOperation,
       logs.Stage.validateCategory, logs.Stage.businessHandler] := rfl

/-- C7: the legacy-password migration leaves every user with a non-empty
hash-algorithm tag unmodified, and rewrites every user with an empty tag
to carry the bcrypt hash of the stored plaintext with the tag set to
bcrypt, all other fields preserved; hashPasswords applies this step to
every stored user. -/
theorem hashPasswords_migration (bHash : String → String) (u : users.User) :
    (u.passwordHashType ≠ "" → users.hashUser bHash u = u) ∧
    (u.passwordHashType = "" →
      users.hashUser bHash u =
        { u with password := bHash u.password, passwordHashType := "bcrypt" }) ∧
    (∀ l : List users.User,
      users.hashPasswords bHash l = l.map (users.hashUser bHash)) := by
  refine ⟨fun h => ?_, fun h => ?_, fun l => rfl⟩
  · simp [users.hashUser, h]
  · simp [users.hashUser, h]

/-- C7 witness: a concrete legacy user with an empty hash-algorithm tag is
migrated to the hashed form. -/
theorem hashPasswords_migration_witness :
    users.legacyUser.passwordHashType = "" ∧
    users.hashUser (fun s => "H" ++ s) users.legacyUser =
      { users.legacyUser with
          password := "H" ++ users.legacyUser.password,
          passwordHashType := "bcrypt" } :=
  ⟨rfl, (hashPasswords_migration (fun s => "H" ++ s) users.legacyUser).2.1 rfl⟩

/-- C8: postMasterUser always creates a master admin user - when the
USERNAME environment variable is empty the bootstrap credentials default
to foo/bar, and in every case the created user has the admin flag set, the
hash-algorithm tag bcrypt, and the bcrypt hash of the chosen plaintext
(never the plaintext itself) as its stored password. -/
theorem postMasterUser_bootstrap (envU envP : String) (bHash : String → String) :
    ((users.postMasterUser "" envP bHash).username = "foo" ∧
     (users.postMasterUser "" envP bHash).password = bHash "bar") ∧
    (users.postMasterUser envU envP bHash).isAdmin = true ∧
    (users.postMasterUser envU envP bHash).passwordHashType = "bcrypt" ∧
    (users.postMasterUser envU envP bHash).password =
      bHash (if envU = "" then "bar" else envP) := by
  refine ⟨⟨rfl, rfl⟩, ?_, ?_, ?_⟩ <;>
    by_cases h : envU = "" <;>
      simp [users.postMasterUser, users.NewAdmin, h]

/-- C5 counterexample: a request without a category classification makes
the part_004 recorder return without writing anything, so the
client-visible response is not the one produced by the wrapped handler. -/
theorem recorder_response_cex :
    (logs.recorderA logs.envAllOk (fun _ => logs.okResponse)
        logs.reqNoCategory).client ≠
      some ((fun _ => logs.okResponse) logs.reqNoCategory) := by decide

/-- C5 amended: failures inside the detached recording step never change
the client-visible response - the written response is independent of the
recording environment in both recorder versions - and whenever the
pre-serve checks pass the client receives exactly the wrapped handler
response; the pre-serve checks themselves can short-circuit, though: the
part_004 recorder writes nothing when the category is missing from the
context or the request dump fails, and the part_005 recorder answers 500
when the request body is unreadable. -/
theorem recorder_response_amended (env env2 : logs.LogEnv)
    (h : logs.ReqCtx → logs.HttpResponse) (r : logs.ReqCtx) :
    ((logs.recorderA env h r).client = (logs.recorderA env2 h r).client) ∧
    ((logs.recorderB env h r).client = (logs.recorderB env2 h r).client) ∧
    (r.xRequestCategory = "streams" →
      (logs.recorderA env h r).client = some (h r) ∧
      (logs.recorderB env h r).client = some (h r)) ∧
    (∀ c, r.ctxCategory = some c →
      (c = logs.Category.reactiveSearch ∨ r.dumpOk = true) →
      (logs.recorderA env h r).client = some (h r)) ∧
    (r.bodyReadable = true → (logs.recorderB env h r).client = some (h r)) ∧
    (r.xRequestCategory ≠ "streams" → r.bodyReadable = false →
      (logs.recorderB env h r).client = some logs.writeBackError500) := by
  refine ⟨?_, ?_, ?_, ?_, ?_, ?_⟩
  · unfold logs.recorderA
    by_cases hs : r.xRequestCategory = "streams"
    · simp [hs]
    · cases hcat : r.ctxCategory with
      | none => simp [hs, hcat]
      | some c =>
        by_cases hd : ¬ c = logs.Category.reactiveSearch ∧ r.dumpOk = false
        · simp [hs, hcat, hd]
        · simp [hs, hcat, hd]
  · unfold logs.recorderB
    by_cases hs : r.xRequestCategory = "streams"
    · simp [hs]
    · by_cases hb : r.bodyReadable = true
      · simp [hs, hb]
      · simp [hs, hb]
  · intro hs
    constructor
    · unfold logs.recorderA
      rw [if_pos hs]
    · unfold logs.recorderB
      rw [if_pos hs]
  · intro c hcat hor
    unfold logs.recorderA
    by_cases hs : r.xRequestCategory = "streams"
    · rw [if_pos hs]
    · have hd : ¬ (¬ c = logs.Category.reactiveSearch ∧ r.dumpOk = false) := by
        rcases hor with hrs | hdump
        · intro hc
          exact hc.1 hrs
        · intro hc
          rw [hdump] at hc
          exact Bool.noConfusion hc.2
      simp [hs, hcat, hd]
  · intro hb
    unfold logs.recorderB
    by_cases hs : r.xRequestCategory = "streams"
    · rw [if_pos hs]
    · simp [hs, hb]
  · intro hs hb
    unfold logs.recorderB
    simp [hs, hb]

/-- C5 witness: a fully classified request with all reads succeeding gets
exactly the handler response written back. -/
theorem recorder_response_amended_witness :
    logs.reqOk.ctxCategory = some logs.Category.userCat ∧
    (logs.recorderA logs.envAllOk (fun _ => logs.okResponse)
        logs.reqOk).client =
      some ((fun _ => logs.okResponse) logs.reqOk) :=
  ⟨rfl,
   (recorder_response_amended logs.envAllOk logs.envAllOk
       (fun _ => logs.okResponse) logs.reqOk).2.2.2.1
     logs.Category.userCat rfl (Or.inr rfl)⟩

/-- C9 counterexample: a non-streams request whose body cannot be read gets
no response recorder and no recording step spawned - the part_005 recorder
answers 500 and records nothing. -/
theorem recorder_spawn_cex :
    logs.reqUnreadable.xRequestCategory ≠ "streams" ∧
    (logs.recorderB logs.envAllOk (fun _ => logs.okResponse)
        logs.reqUnreadable).spawned = false ∧
    (logs.recorderB logs.envAllOk (fun _ => logs.okResponse)
        logs.reqUnreadable).record = none := by decide

/-- C9 amended: requests tagged streams are served directly with no record
in both recorder versions; any other request gets the recording step
spawned provided the pre-serve checks pass (a category in context and,
outside ReactiveSearch, a successful dump in part_004; a readable request
body in part_005). -/
theorem recorder_streams_amended (env : logs.LogEnv)
    (h : logs.ReqCtx → logs.HttpResponse) (r : logs.ReqCtx) :
    (r.xRequestCategory = "streams" →
      logs.recorderA env h r =
        { client := some (h r), spawned := false, record := none } ∧
      logs.recorderB env h r =
        { client := some (h r), spawned := false, record := none }) ∧
    (r.xRequestCategory ≠ "streams" →
      (∀ c, r.ctxCategory = some c →
        (c = logs.Category.reactiveSearch ∨ r.dumpOk = true) →
        (logs.recorderA env h r).spawned = true) ∧
      (r.bodyReadable = true → (logs.recorderB env h r).spawned = true)) := by
  constructor
  · intro hs
    constructor
    · unfold logs.recorderA
      rw [if_pos hs]
    · unfold logs.recorderB
      rw [if_pos hs]
  · intro hs
    constructor
    · intro c hcat hor
      have hd : ¬ (¬ c = logs.Category.reactiveSearch ∧ r.dumpOk = false) := by
        rcases hor with hrs | hdump
        · intro hc
          exact hc.1 hrs
        · intro hc
          rw [hdump] at hc
          exact Bool.noConfusion hc.2
      unfold logs.recorderA
      simp [hs, hcat, hd]
    · intro hb
      unfold logs.recorderB
      simp [hs, hb]

/-- C9 witness: a streams-tagged request is served directly with nothing
recorded. -/
theorem recorder_streams_amended_witness :
    logs.reqStreams.xRequestCategory = "streams" ∧
    logs.recorderA logs.envAllOk (fun _ => logs.okResponse) logs.reqStreams =
      { client := some ((fun _ => logs.okResponse) logs.reqStreams),
        spawned := false, record := none } :=
  ⟨rfl,
   ((recorder_streams_amended logs.envAllOk (fun _ => logs.okResponse)
       logs.reqStreams).1 rfl).1⟩

/-- C6 counterexample: the part_004 non-ReactiveSearch path stores as
request body the dump segment between the first two CRLFCRLF separators,
so for an original request body that itself contains CRLFCRLF the stored
field is not the first min(length, 1000000) bytes of that body. -/
theorem body_truncation_cex :
    logs.storedRequestBodyDump ("H: v\r\n\r\na\r\n\r\nb").data = ("a").data ∧
    ("a\r\n\r\nb").data.length ≤ logs.maxBodySize ∧
    logs.trunc ("a\r\n\r\nb").data = ("a\r\n\r\nb").data ∧
    ¬ ("a").data = ("a\r\n\r\nb").data := by decide

/-- C6 amended: stored bodies of at most 1000000 bytes are recorded whole
and longer ones are cut to exactly their first 1000000 bytes, with no
failure path; the part_005 request body and the response bodies are this
truncation of the original body, while the part_004 non-ReactiveSearch
request body is the truncation of the dump segment after the first
CRLFCRLF (which differs from the original body when the body contains
CRLFCRLF). -/
theorem body_truncation_amended (b : List Char) :
    (b.length ≤ logs.maxBodySize → logs.trunc b = b) ∧
    (logs.maxBodySize < b.length →
      logs.trunc b = b.take logs.maxBodySize ∧
      (logs.trunc b).length = logs.maxBodySize) ∧
    logs.storedRequestBody b = logs.trunc b ∧
    logs.storedResponseBody b = logs.trunc b ∧
    logs.storedRequestBodyDump b = logs.trunc (logs.parsedBody b) := by
  refine ⟨fun hle => ?_, fun hlt => ⟨?_, ?_⟩, rfl, rfl, rfl⟩
  · unfold logs.trunc logs.utilMin
    by_cases hlt : b.length < logs.maxBodySize
    · rw [if_pos hlt]
      exact List.take_length b
    · have heq : b.length = logs.maxBodySize := le_antisymm hle (not_lt.mp hlt)
      rw [if_neg hlt, ← heq]
      exact List.take_length b
  · unfold logs.trunc logs.utilMin
    have hn : ¬ b.length < logs.maxBodySize := by omega
    rw [if_neg hn]
  · unfold logs.trunc logs.utilMin
    have hn : ¬ b.length < logs.maxBodySize := by omega
    rw [if_neg hn, List.length_take]
    omega

/-- C6 witness: a two-byte body is stored whole and a body one byte over
the ceiling is cut to its first 1000000 bytes. -/
theorem body_truncation_amended_witness :
    (("hi").data.length ≤ logs.maxBodySize ∧
      logs.trunc ("hi").data = ("hi").data) ∧
    (logs.maxBodySize < (List.replicate (logs.maxBodySize + 1) 'a').length ∧
      logs.trunc (List.replicate (logs.maxBodySize + 1) 'a') =
        (List.replicate (logs.maxBodySize + 1) 'a').take logs.maxBodySize) :=
  ⟨⟨by decide, (body_truncation_amended ("hi").data).1 (by decide)⟩,
   ⟨by simp only [List.length_replicate]; exact Nat.lt_succ_self _,
    ((body_truncation_amended (List.replicate (logs.maxBodySize + 1) 'a')).2.1
      (by simp only [List.length_replicate]; exact Nat.lt_succ_self _)).1⟩⟩

/-- The bytewise order on char lists is reflexive. -/
theorem charListLe_refl (a : List Char) : logs.charListLe a a = true := by
  induction a with
  | nil => rfl
  | cons c cs ih => simp [logs.charListLe, ih]

/-- The bytewise order on char lists is total. -/
theorem charListLe_total (a b : List Char) :
    logs.charListLe a b = true ∨ logs.charListLe b a = true := by
  induction a generalizing b with
  | nil => exact Or.inl rfl
  | cons c cs ih =>
    cases b with
    | nil => exact Or.inr rfl
    | cons d ds =>
      by_cases h1 : c.toNat < d.toNat
      · left
        simp [logs.charListLe, h1]
      · by_cases h2 : d.toNat < c.toNat
        · right
          simp [logs.charListLe, h2]
        · rcases ih ds with h | h
          · left
            simp [logs.charListLe, h1, h2, h]
          · right
            simp [logs.charListLe, h1, h2, h]

/-- The bytewise order on char lists is transitive. -/
theorem charListLe_trans (a b c : List Char)
    (hab : logs.charListLe a b = true) (hbc : logs.charListLe b c = true) :
    logs.charListLe a c = true := by
  induction a generalizing b c with
  | nil => rfl
  | cons x xs ih =>
    cases b with
    | nil => simp [logs.charListLe] at hab
    | cons y ys =>
      cases c with
      | nil => simp [logs.charListLe] at hbc
      | cons z zs =>
        simp only [logs.charListLe] at hab hbc ⊢
        by_cases hxy : x.toNat < y.toNat
        · by_cases hyz : y.toNat < z.toNat
          · have hxz : x.toNat < z.toNat := Nat.lt_trans hxy hyz
            simp [hxz]
          · by_cases hzy : z.toNat < y.toNat
            · rw [if_neg hyz, if_pos hzy] at hbc
              exact Bool.noConfusion hbc
            · have hyzeq : y.toNat = z.toNat :=
                Nat.le_antisymm (Nat.not_lt.mp hzy) (Nat.not_lt.mp hyz)
              have hxz : x.toNat < z.toNat := hyzeq ▸ hxy
              simp [hxz]
        · by_cases hyx : y.toNat < x.toNat
          · rw [if_neg hxy, if_pos hyx] at hab
            exact Bool.noConfusion hab
          · have hxyeq : x.toNat = y.toNat :=
              Nat.le_antisymm (Nat.not_lt.mp hyx) (Nat.not_lt.mp hxy)
            rw [if_neg hxy, if_neg hyx] at hab
            by_cases hyz : y.toNat < z.toNat
            · have hxz : x.toNat < z.toNat := hxyeq ▸ hyz
              simp [hxz]
            · by_cases hzy : z.toNat < y.toNat
              · rw [if_neg hyz, if_pos hzy] at hbc
                exact Bool.noConfusion hbc
              · have hyzeq : y.toNat = z.toNat :=
                  Nat.le_antisymm (Nat.not_lt.mp hzy) (Nat.not_lt.mp hyz)
                have hxz : ¬ x.toNat < z.toNat := by omega
                have hzx : ¬ z.toNat < x.toNat := by omega
                rw [if_neg hyz, if_neg hzy] at hbc
                rw [if_neg hxz, if_neg hzx]
                exact ih ys zs hab hbc

/-- The Go string order is total. -/
theorem goStringLe_total (a b : String) :
    logs.goStringLe a b = true ∨ logs.goStringLe b a = true :=
  charListLe_total a.data b.data

/-- The Go string order is transitive. -/
theorem goStringLe_trans (a b c : String)
    (hab : logs.goStringLe a b = true) (hbc : logs.goStringLe b c = true) :
    logs.goStringLe a c = true :=
  charListLe_trans a.data b.data c.data hab hbc

/-- C10: the rollover retention step deletes nothing when at most two
indices match, and with more than two matches deletes exactly the sorted
prefix of all-but-two while the two greatest (in the bytewise string
order used by sort.Strings) are the ones retained: the deleted list is
the sorted take, the sorted list is a permutation of the matches, the
retained suffix has exactly two entries, and every deleted name precedes
every retained name in the order. -/
theorem rollover_retention (indices : List String) :
    (indices.length ≤ 2 → logs.rolloverDeletes indices = []) ∧
    (2 < indices.length →
      logs.rolloverDeletes indices =
        (logs.sortStrings indices).take (indices.length - 2) ∧
      List.Perm (logs.sortStrings indices) indices ∧
      (logs.rolloverDeletes indices).length = indices.length - 2 ∧
      ((logs.sortStrings indices).drop (indices.length - 2)).length = 2 ∧
      (∀ d, d ∈ logs.rolloverDeletes indices →
        ∀ k, k ∈ (logs.sortStrings indices).drop (indices.length - 2) →
          logs.goStringLe d k = true)) := by
  have hperm : List.Perm (logs.sortStrings indices) indices :=
    List.perm_insertionSort _ indices
  have hlen : (logs.sortStrings indices).length = indices.length :=
    hperm.length_eq
  constructor
  · intro hle
    unfold logs.rolloverDeletes
    rw [if_neg (by omega)]
  · intro hgt
    have h2 : indices.length > 2 := hgt
    have hdel : logs.rolloverDeletes indices =
        (logs.sortStrings indices).take (indices.length - 2) := by
      simp only [logs.rolloverDeletes, h2, if_true, hlen]
    have hsorted :
        List.Sorted (fun a b => logs.goStringLe a b = true)
          (logs.sortStrings indices) := by
      haveI : IsTotal String (fun a b => logs.goStringLe a b = true) :=
        ⟨goStringLe_total⟩
      haveI : IsTrans String (fun a b => logs.goStringLe a b = true) :=
        ⟨goStringLe_trans⟩
      exact List.sorted_insertionSort _ indices
    refine ⟨hdel, hperm, ?_, ?_, ?_⟩
    · rw [hdel, List.length_take, hlen]
      omega
    · rw [List.length_drop, hlen]
      omega
    · intro d hd k hk
      rw [hdel] at hd
      exact hsorted.rel_of_mem_take_of_mem_drop hd hk

/-- C10 witness: with three matching indices, exactly the
lexicographically smallest one is scheduled for deletion. -/
theorem rollover_retention_witness :
    (2 < ([".logs-000002", ".logs-000001", ".logs-000003"] : List String).length) ∧
    logs.rolloverDeletes [".logs-000002", ".logs-000001", ".logs-000003"] =
      (logs.sortStrings [".logs-000002", ".logs-000001", ".logs-000003"]).take
        (([".logs-000002", ".logs-000001", ".logs-000003"] : List String).length - 2) ∧
    logs.rolloverDeletes [".logs-000002", ".logs-000001", ".logs-000003"] =
      [".logs-000001"] :=
  ⟨by decide,
   ((rollover_retention [".logs-000002", ".logs-000001", ".logs-000003"]).2
      (by decide)).1,
   by decide⟩
